import Mathlib

set_option maxHeartbeats 1000000

namespace ConvertNotebooks

/-! # Shallow embedding of scripts/convert_notebooks.py

String helpers model the Python string primitives the script relies on
(html.escape, str.splitlines, str.strip, str.split, str.count, str.join).
All definitions are structural recursions so that concrete runs reduce
inside the kernel. -/

/-- Model of Python html.escape with quote=True: the sequential replacements
for amp, lt, gt, quot and the apostrophe are equivalent to one
character-wise map because the ampersand is replaced first. -/
def escapeChar (c : Char) : List Char :=
  if c = '&' then "&amp;".toList
  else if c = '<' then "&lt;".toList
  else if c = '>' then "&gt;".toList
  else if c = '"' then "&quot;".toList
  else if c = '\'' then "&#x27;".toList
  else [c]

def htmlEscape (s : String) : String :=
  String.mk (s.toList.foldr (fun c acc => escapeChar c ++ acc) [])

/-- Characters Python str.strip() removes (the str.isspace set). -/
def pyWsChar (c : Char) : Bool :=
  c == ' ' || c == '\t' || c == '\n' || c == '\r' || c == '\x0b' || c == '\x0c' ||
  c == '\x1c' || c == '\x1d' || c == '\x1e' || c == '\x1f' || c == '\x85' ||
  c == '\xa0' || c == '\u1680' ||
  (Nat.ble 0x2000 c.toNat && Nat.ble c.toNat 0x200a) ||
  c == '\u2028' || c == '\u2029' || c == '\u202f' || c == '\u205f' || c == '\u3000'

/-- Model of Python str.strip() with no argument. -/
def pyStrip (s : String) : String :=
  String.mk (((s.toList.dropWhile pyWsChar).reverse.dropWhile pyWsChar).reverse)

/-- Line-break characters recognised by Python str.splitlines. -/
def isLineBreak (c : Char) : Bool :=
  c == '\n' || c == '\r' || c == '\x0b' || c == '\x0c' || c == '\x1c' ||
  c == '\x1d' || c == '\x1e' || c == '\x85' || c == '\u2028' || c == '\u2029'

def splitlinesGo : List Char → List Char → List String
  | [], acc => if acc.isEmpty then [] else [String.mk acc.reverse]
  | '\r' :: '\n' :: rest, acc => String.mk acc.reverse :: splitlinesGo rest []
  | c :: rest, acc =>
    if isLineBreak c then String.mk acc.reverse :: splitlinesGo rest []
    else splitlinesGo rest (c :: acc)

/-- Model of Python str.splitlines(): a trailing break adds no empty line and
a CRLF pair counts as a single break. -/
def pySplitlines (s : String) : List String := splitlinesGo s.toList []

/-- Model of Python str.count for a one-character pattern. -/
def countChar (c : Char) (s : String) : Nat :=
  (s.toList.filter (fun x => x == c)).length

def strStartsWith (s p : String) : Bool := p.toList.isPrefixOf s.toList

/-- Model of Python str.split for the two-character separator of two
characters hash and space: non-overlapping, left to right. -/
def splitHashSpace : List Char → List Char → List String
  | '#' :: ' ' :: rest, acc => String.mk acc.reverse :: splitHashSpace rest []
  | c :: rest, acc => splitHashSpace rest (c :: acc)
  | [], acc => [String.mk acc.reverse]

def splitHashSpaceStr (s : String) : List String := splitHashSpace s.toList []

/-- Model of Python str.split for the separator ".ipynb". -/
def splitIpynb : List Char → List Char → List String
  | '.' :: 'i' :: 'p' :: 'y' :: 'n' :: 'b' :: rest, acc =>
    String.mk acc.reverse :: splitIpynb rest []
  | c :: rest, acc => splitIpynb rest (c :: acc)
  | [], acc => [String.mk acc.reverse]

/-- filename.split(".ipynb")[0] from the source. -/
def headSplitIpynb (s : String) : String := (splitIpynb s.toList []).headD s

/-- Model of Python sep.join(parts). -/
def joinSep (sep : String) : List String → String
  | [] => ""
  | [x] => x
  | x :: xs => x ++ sep ++ joinSep sep xs

def subIn (needle : List Char) : List Char → Bool
  | [] => needle.isEmpty
  | c :: rest => needle.isPrefixOf (c :: rest) || subIn needle rest

/-- Substring test used to state counterexamples about emitted markup. -/
def strContainsSub (hay needle : String) : Bool := subIn needle.toList hay.toList

/-- Worded from the claim for C6: everything after the FIRST occurrence of
the separator hash-space, for comparison with what the code computes. -/
def claimFirstSplit (e : String) : String :=
  joinSep "# " ((splitHashSpaceStr e).drop 1)

/-! ## Notebook data model (nbformat cells and outputs, as the script reads them) -/

/-- One output attached to an executed code cell.  Absent dictionary keys are
modelled as none or as the empty list, matching output.get(...) defaults. -/
structure Output where
  output_type : String
  name : Option String
  text : Option String
  data : List (String × String)
  traceback : List String
deriving DecidableEq

structure Cell where
  cell_type : String
  source : String
  outputs : List Output
deriving DecidableEq

structure Notebook where
  cells : List Cell
deriving DecidableEq

def lookupData (o : Output) (mime : String) : Option String :=
  o.data.lookup mime

/-! ## Renderer (extract_html_from_notebook)

Each appended f-string becomes one structured fragment; fragStr recovers the
exact emitted text.  Filesystem side effects (os.makedirs and the image file
write in save_plot_as_image) become an explicit event list. -/

inductive Frag where
  | codeCell (source : String)
  | outBlock (agg : String)
  | img64 (data : String)
  | imgFile (folder : String) (fname : String)
  | errBlock (msg : String)
  | mdHeading (level : Nat) (content : String)
  | mdPlain (content : String)
deriving DecidableEq

inductive FsEvent where
  | ensureDir (path : String)
  | writeImage (dir : String) (fname : String) (data : String)
deriving DecidableEq

/-- The local accumulation of the rendering pass: html_output, fig_id and
aggregated_output from the source, plus the filesystem event log. -/
structure RState where
  frags : List Frag
  figId : Nat
  agg : String
  events : List FsEvent
deriving DecidableEq

/-- os.path.sep; the script only concatenates it between path pieces. -/
def delim : String := "/"

/-- "output_nb_" + filename.split(".ipynb")[0] from the source. -/
def outFolder (filename : String) : String :=
  "output_nb_" ++ headSplitIpynb filename

/-- The image file name for the given (already incremented) fig_id:
"fig_0" + str(fig_id) + ".png" while fig_id is at most ten, unpadded after. -/
def figFileName (figId : Nat) : String :=
  if figId ≤ 10 then "fig_0" ++ Nat.repr figId ++ ".png"
  else "fig_" ++ Nat.repr figId ++ ".png"

/-- The first check of the output loop: a text/plain payload is escaped and
appended to aggregated_output. -/
def textStep (st : RState) (o : Output) : RState :=
  match lookupData o "text/plain" with
  | some t =>
    RState.mk st.frags st.figId (st.agg ++ ("\n\t\t" ++ htmlEscape t)) st.events
  | none => st

/-- The second check: a stream output named stdout is escaped and appended
to aggregated_output. -/
def streamStep (st : RState) (o : Output) : RState :=
  if o.output_type = "stream" ∧ o.name = some "stdout" then
    RState.mk st.frags st.figId
      (st.agg ++ ("\n\t\t" ++ htmlEscape (o.text.getD ""))) st.events
  else st

/-- The third check: an image/png payload first flushes a non-empty
aggregated_output as an Out: block, then is emitted inline as Base64 or
saved to a numbered file under the per-notebook output directory. -/
def imageStep (u : Bool) (inputDir filename : String) (st : RState) (o : Output) :
    RState :=
  match lookupData o "image/png" with
  | some d =>
    let stf :=
      if st.agg = "" then st
      else RState.mk (st.frags ++ [Frag.outBlock st.agg]) st.figId "" st.events
    if u then
      RState.mk (stf.frags ++ [Frag.img64 d]) stf.figId stf.agg stf.events
    else
      let fid := stf.figId + 1
      let fname := figFileName fid
      let folder := outFolder filename
      let odir := inputDir ++ delim ++ folder
      RState.mk (stf.frags ++ [Frag.imgFile folder fname]) fid stf.agg
        (stf.events ++ [FsEvent.ensureDir odir, FsEvent.writeImage odir fname d])
  | none => st

/-- The fourth check: an error output is emitted immediately as a
preformatted block joining the traceback lines with newlines. -/
def errorStep (st : RState) (o : Output) : RState :=
  if o.output_type = "error" then
    RState.mk (st.frags ++ [Frag.errBlock (joinSep "\n" o.traceback)]) st.figId
      st.agg st.events
  else st

/-- One iteration of the output loop of extract_html_from_notebook: the four
independent checks for text/plain, stdout stream, image/png and error run in
sequence on the evolving state, exactly as in the source. -/
def processOutput (u : Bool) (inputDir filename : String) (st : RState) (o : Output) :
    RState :=
  errorStep (imageStep u inputDir filename (streamStep (textStep st o) o) o) o

/-- What the text/plain check appends to aggregated_output. -/
def textAppend (o : Output) : String :=
  match lookupData o "text/plain" with
  | some t => "\n\t\t" ++ htmlEscape t
  | none => ""

/-- What the stdout stream check appends to aggregated_output. -/
def streamAppend (o : Output) : String :=
  if o.output_type = "stream" ∧ o.name = some "stdout" then
    "\n\t\t" ++ htmlEscape (o.text.getD "")
  else ""

/-- The total text this output contributes to aggregated_output. -/
def aggAppends (o : Output) : String := textAppend o ++ streamAppend o

/-- lines from the markdown branch: content lines after stripping, dropping
blank lines. -/
def mdLines (e : String) : List String :=
  ((pySplitlines e).map pyStrip).filter (fun l => l != "")

/-- markdown_content.split("# ")[-1] from the source. -/
def lastHashSplit (e : String) : String := (splitHashSpaceStr e).getLastD e

/-- The flush after all outputs of a code cell: a still-pending
aggregated_output is emitted as a final Out: block and reset. -/
def codeCellFlush (st2 : RState) : RState :=
  if st2.agg = "" then st2
  else RState.mk (st2.frags ++ [Frag.outBlock st2.agg]) st2.figId "" st2.events

/-- One iteration of the cell loop of extract_html_from_notebook. -/
def processCell (u : Bool) (inputDir filename : String) (st : RState) (cell : Cell) :
    RState :=
  if cell.cell_type = "code" then
    codeCellFlush
      (cell.outputs.foldl (processOutput u inputDir filename)
        (RState.mk (st.frags ++ [Frag.codeCell cell.source]) st.figId st.agg st.events))
  else if cell.cell_type = "markdown" then
    match mdLines (htmlEscape cell.source) with
    | [l] =>
      if strStartsWith l "#" then
        RState.mk
          (st.frags ++
            [Frag.mdHeading (countChar '#' (htmlEscape cell.source))
              (lastHashSplit (htmlEscape cell.source))])
          st.figId st.agg st.events
      else
        RState.mk (st.frags ++ [Frag.mdPlain (htmlEscape cell.source)]) st.figId
          st.agg st.events
    | _ =>
      RState.mk (st.frags ++ [Frag.mdPlain (htmlEscape cell.source)]) st.figId
        st.agg st.events
  else st

/-- The full rendering pass, starting from empty accumulators as in the
source (html_output = [], fig_id = 0, aggregated_output = ""). -/
def extractFrags (nb : Notebook) (inputDir filename : String) (u : Bool) : RState :=
  nb.cells.foldl (processCell u inputDir filename) (RState.mk [] 0 "" [])

/-- The exact markup text of one fragment, transcribed from the f-strings of
the source. -/
def fragStr : Frag → String
  | .codeCell src =>
    "<div class='code-cell'>\n\t<code class='language-python'>\n\t\t" ++ src ++
    "\n\t</code>\n</div>"
  | .outBlock agg =>
    "<div class='output-cell'><div class='output-label'>\n\tOut:\n</div>\n\t<div class='output-code'>" ++
    agg ++ "\n\t</div>\n</div>"
  | .img64 d =>
    "<div class='output-cell'>\n\t<img src='data:image/png;base64," ++ d ++ "'/>\n</div>"
  | .imgFile folder fname =>
    "<div class='output-cell'>\n\t<img src='" ++ folder ++ delim ++ fname ++ "'/>\n</div>"
  | .errBlock msg =>
    "<div class='output-cell error'>\n\t<pre>\n\t\t" ++ msg ++ "\n\t</pre>\n</div>"
  | .mdHeading lvl content =>
    "<div class='markdown-cell'>\n\t<h" ++ Nat.repr lvl ++ ">\n\t\t" ++ content ++
    "\n\t</h" ++ Nat.repr lvl ++ ">\n</div>"
  | .mdPlain content =>
    "<div class='markdown-cell'>\n\t" ++ content ++ "\n</div>"

/-- extract_html_from_notebook: the fragments joined by a newline. -/
def extract_html_from_notebook (nb : Notebook) (inputDir filename : String)
    (u : Bool) : String :=
  joinSep "\n" ((extractFrags nb inputDir filename u).frags.map fragStr)

/-! ## Hierarchy extractor (html_to_hierarchical_json)

The markup is handed to an HTML parser (an external collaborator per the
spec), modelled as an element tree: a tag with a name, attributes and
children, or a text node.  A mutual inductive keeps every recursion
structural so concrete runs reduce inside the kernel. -/

mutual

inductive Node where
  | text (s : String)
  | tag (name : String) (attrs : List (String × String)) (children : NodeList)

inductive NodeList where
  | nil
  | cons (n : Node) (rest : NodeList)

end

def tagName : Node → String
  | .text _ => ""
  | .tag n _ _ => n

/-- The tag elements of a sibling list, in order: find_next_siblings() with
no filter yields only tags, never strings. -/
def NodeList.tags : NodeList → List Node
  | .nil => []
  | .cons n rest =>
    (match n with
     | .tag _ _ _ => [n]
     | .text _ => []) ++ rest.tags

def strAttrs : List (String × String) → String
  | [] => ""
  | (k, v) :: rest => " " ++ k ++ "=\"" ++ v ++ "\"" ++ strAttrs rest

/-- Tags the parser serialises as self-closing; only img occurs here. -/
def isVoidTag (n : String) : Bool := n == "img"

mutual

/-- str(tag): the serialisation of one parsed element. -/
def strNode : Node → String
  | .text s => s
  | .tag name attrs children =>
    if isVoidTag name then "<" ++ name ++ strAttrs attrs ++ "/>"
    else
      "<" ++ name ++ strAttrs attrs ++ ">" ++ strNodes children ++ "</" ++ name ++ ">"

def strNodes : NodeList → String
  | .nil => ""
  | .cons n rest => strNode n ++ strNodes rest

end

mutual

def textsNode : Node → List String
  | .text s => [s]
  | .tag _ _ children => textsList children

def textsList : NodeList → List String
  | .nil => []
  | .cons n rest => textsNode n ++ textsList rest

end

/-- tag.get_text(strip=True): every descendant string, stripped, with the
blank pieces dropped, joined with an empty separator. -/
def getTextStrip (n : Node) : String :=
  joinSep "" (((textsNode n).map pyStrip).filter (fun s => s != ""))

/-- One position of the regular expression h[1-6]: the letter h followed by a
digit between one and six. -/
def isH16 : List Char → Bool
  | 'h' :: c :: _ => Nat.ble '1'.toNat c.toNat && Nat.ble c.toNat '6'.toNat
  | _ => false

def searchHList : List Char → Bool
  | [] => false
  | c :: rest => isH16 (c :: rest) || searchHList rest

/-- re.search semantics for h[1-6], used by soup.find_all on tag names. -/
def searchH (s : String) : Bool := searchHList s.toList

/-- re.match semantics for h[1-6] (anchored at the start), used on sibling
tag names. -/
def matchH (s : String) : Bool := isH16 s.toList

def charDigit (c : Char) : Nat := c.toNat - '0'.toNat

/-- int(tag.name[1]) from the source. -/
def levelOf : Node → Nat
  | .text _ => 0
  | .tag name _ _ =>
    match name.toList with
    | _ :: c :: _ => charDigit c
    | _ => 0

/-- The contents the source computes for a heading: str(tag) plus str(s) for
every LATER sibling tag s whose name does not match h[1-6] — the filter
skips heading siblings but keeps non-heading siblings past them. -/
def contentsCode (t : Node) (sibs : NodeList) : String :=
  strNode t ++
    joinSep "" (((sibs.tags.filter (fun u => !(matchH (tagName u)))).map strNode))

/-- A heading element name per the claim for C1 (h1 through h6). -/
def isHeadingElemName (n : String) : Bool :=
  n == "h1" || n == "h2" || n == "h3" || n == "h4" || n == "h5" || n == "h6"

/-- The contents the claim for C1 describes: str(tag) plus the markup of the
following sibling elements up to, and not including, the next heading. -/
def contentsClaim (t : Node) (sibs : NodeList) : String :=
  strNode t ++
    joinSep ""
      (((sibs.tags.takeWhile (fun u => !(isHeadingElemName (tagName u)))).map strNode))

mutual

/-- soup.find_all(re.compile(r'h[1-6]')) in document (pre-order) position,
paired with each found tag's later siblings. -/
def collectNode : Node → NodeList → List (Node × NodeList)
  | .text _, _ => []
  | .tag name attrs children, sibs =>
    (if searchH name then [(Node.tag name attrs children, sibs)] else []) ++
      collectList children

def collectList : NodeList → List (Node × NodeList)
  | .nil => []
  | .cons n rest => collectNode n rest ++ collectList rest

end

/-- The (level, title, contents) triple the loop body computes for each
found heading, in document order. -/
def headingTriples (doc : NodeList) : List (Nat × String × String) :=
  (collectList doc).map (fun p => (levelOf p.1, getTextStrip p.1, contentsCode p.1 p.2))

/-- A section of the hierarchy: {"contents": ..., "sections": {...}}; an
absent sections key is the empty list. -/
inductive Section where
  | mk (contents : String) (sections : List (String × Section))

def Section.contents : Section → String
  | .mk c _ => c

def Section.sections : Section → List (String × Section)
  | .mk _ s => s

/-- A stack entry: the still-open section paired with its level.  Children
accumulate here and are folded into the parent when the entry is popped,
which reproduces the in-place dictionary mutation of the source. -/
structure BFrame where
  title : String
  contents : String
  level : Nat
  children : List (String × Section)

/-- Python dict insertion: overwrite in place on an existing key, append
otherwise. -/
def insertSec (k : String) (v : Section) :
    List (String × Section) → List (String × Section)
  | [] => [(k, v)]
  | (q, w) :: rest => if q = k then (q, v) :: rest else (q, w) :: insertSec k v rest

/-- The pop loop: while the stack top's level is at least lvl, close the top
entry and attach it to the entry below (to the root mapping when the stack
empties).  pending carries the just-closed child downwards. -/
def popGo (lvl : Nat) : List BFrame → Option (String × Section) →
    List (String × Section) → List (String × Section) × List BFrame
  | [], pending, root =>
    (match pending with
     | some (k, v) => insertSec k v root
     | none => root, [])
  | f :: fs, pending, root =>
    let f' : BFrame :=
      match pending with
      | some (k, v) => BFrame.mk f.title f.contents f.level (insertSec k v f.children)
      | none => f
    if lvl ≤ f'.level then
      popGo lvl fs (some (f'.title, Section.mk f'.contents f'.children)) root
    else (root, f' :: fs)

/-- One heading step: pop every stack entry of level at least this one, then
push the new open section. -/
def hstep (st : List (String × Section) × List BFrame) (h : Nat × String × String) :
    List (String × Section) × List BFrame :=
  let r := popGo h.1 st.2 none st.1
  (r.1, BFrame.mk h.2.1 h.2.2 h.1 [] :: r.2)

/-- The stack scan over the headings; a final full pop (every level is at
least zero) closes the sections still open. -/
def buildHierarchy (hs : List (Nat × String × String)) : List (String × Section) :=
  let r := hs.foldl hstep ([], [])
  (popGo 0 r.2 none r.1).1

/-- html_to_hierarchical_json: the root object maps the filename to the
mapping of top-level heading titles. -/
def html_to_hierarchical_json (doc : NodeList) (filename : String) :
    String × List (String × Section) :=
  (filename, buildHierarchy (headingTriples doc))

/-! ## Parse model for the rendered markup

Each renderer fragment parses into one element tree; the interpolated
escaped text parses as a text node.  The concatenated document interleaves
the fragment trees with the newline text the renderer joins with. -/

/-- The h element inside a heading markdown fragment. -/
def hNode (lvl : Nat) (content : String) : Node :=
  Node.tag ("h" ++ Nat.repr lvl) []
    (NodeList.cons (Node.text ("\n\t\t" ++ content ++ "\n\t")) NodeList.nil)

/-- The sibling list following the h element inside its markdown-cell div. -/
def tailNL : NodeList := NodeList.cons (Node.text "\n") NodeList.nil

/-- The element tree each rendered fragment denotes. -/
def fragNode : Frag → Node
  | .codeCell src =>
    Node.tag "div" [("class", "code-cell")]
      (NodeList.cons (Node.text "\n\t")
        (NodeList.cons
          (Node.tag "code" [("class", "language-python")]
            (NodeList.cons (Node.text ("\n\t\t" ++ src ++ "\n\t")) NodeList.nil))
          tailNL))
  | .outBlock agg =>
    Node.tag "div" [("class", "output-cell")]
      (NodeList.cons
        (Node.tag "div" [("class", "output-label")]
          (NodeList.cons (Node.text "\n\tOut:\n") NodeList.nil))
        (NodeList.cons (Node.text "\n\t")
          (NodeList.cons
            (Node.tag "div" [("class", "output-code")]
              (NodeList.cons (Node.text (agg ++ "\n\t")) NodeList.nil))
            tailNL)))
  | .img64 d =>
    Node.tag "div" [("class", "output-cell")]
      (NodeList.cons (Node.text "\n\t")
        (NodeList.cons
          (Node.tag "img" [("src", "data:image/png;base64," ++ d)] NodeList.nil)
          tailNL))
  | .imgFile folder fname =>
    Node.tag "div" [("class", "output-cell")]
      (NodeList.cons (Node.text "\n\t")
        (NodeList.cons
          (Node.tag "img" [("src", folder ++ delim ++ fname)] NodeList.nil)
          tailNL))
  | .errBlock msg =>
    Node.tag "div" [("class", "output-cell error")]
      (NodeList.cons (Node.text "\n\t")
        (NodeList.cons
          (Node.tag "pre"  []
            (NodeList.cons (Node.text ("\n\t\t" ++ msg ++ "\n\t")) NodeList.nil))
          tailNL))
  | .mdHeading lvl content =>
    Node.tag "div" [("class", "markdown-cell")]
      (NodeList.cons (Node.text "\n\t") (NodeList.cons (hNode lvl content) tailNL))
  | .mdPlain content =>
    Node.tag "div" [("class", "markdown-cell")]
      (NodeList.cons (Node.text ("\n\t" ++ content ++ "\n")) NodeList.nil)

/-- The parsed document for a fragment sequence: the fragment trees with the
joining newline text between consecutive fragments. -/
def docOfFrags : List Frag → NodeList
  | [] => NodeList.nil
  | [f] => NodeList.cons (fragNode f) NodeList.nil
  | f :: g :: rest =>
    NodeList.cons (fragNode f)
      (NodeList.cons (Node.text "\n") (docOfFrags (g :: rest)))

/-! ## A notebook whose rendered markup carries markup-bearing code text

The renderer emits code cell sources verbatim, so a source holding an HTML
string literal produces rendered markup in which those tags are real
elements of the parse.  The following concrete notebook, its rendered
markup, and the document tree the HTML parser produces for that markup
exercise the hierarchy extractor on a heading that has element siblings
past the next heading. -/

/-- A plausible code cell source: a Python string literal holding markup. -/
def srcC1 : String := "html_str = \"<h1>T</h1><p>P</p><h2>S</h2><p>Q</p>\""

def nbC1 : Notebook := Notebook.mk [Cell.mk "code" srcC1 []]

def h1C1 : Node := Node.tag "h1" [] (NodeList.cons (Node.text "T") NodeList.nil)

def h2C1 : Node := Node.tag "h2" [] (NodeList.cons (Node.text "S") NodeList.nil)

def pP_C1 : Node := Node.tag "p" [] (NodeList.cons (Node.text "P") NodeList.nil)

def pQ_C1 : Node := Node.tag "p" [] (NodeList.cons (Node.text "Q") NodeList.nil)

/-- The siblings following the h1 element inside the code element: a p
element, the h2 heading, another p element PAST that heading, and the
closing text of the Python string literal. -/
def sibsH1C1 : NodeList :=
  NodeList.cons pP_C1 (NodeList.cons h2C1 (NodeList.cons pQ_C1
    (NodeList.cons (Node.text "\"\n\t") NodeList.nil)))

/-- The document tree the HTML parser produces for the rendered markup of
nbC1 (checked against the tag-soup parser: the unescaped source text opens
real h1, p, h2, p elements as children of the code element). -/
def docC1 : NodeList :=
  NodeList.cons
    (Node.tag "div" [("class", "code-cell")]
      (NodeList.cons (Node.text "\n\t")
        (NodeList.cons
          (Node.tag "code" [("class", "language-python")]
            (NodeList.cons (Node.text "\n\t\thtml_str = \"")
              (NodeList.cons h1C1 sibsH1C1)))
          (NodeList.cons (Node.text "\n") NodeList.nil))))
    NodeList.nil

/-! ## Helper constructors for concrete notebooks in theorems -/

/-- An executed result or display output carrying only an image payload. -/
def mkImgOut (d : String) : Output := Output.mk "display_data" none none [("image/png", d)] []

/-- A stdout stream output. -/
def streamStdout (t : String) : Output := Output.mk "stream" (some "stdout") (some t) [] []

/-- An execute_result output carrying only a text/plain payload. -/
def execResult (t : String) : Output := Output.mk "execute_result" none none [("text/plain", t)] []

/-- An error output carrying a traceback. -/
def errOut (tb : List String) : Output := Output.mk "error" none none [] tb

/-- The image file names written by the recorded filesystem events. -/
def imgEventNames (evs : List FsEvent) : List String :=
  evs.filterMap (fun e =>
    match e with
    | .writeImage _ fname _ => some fname
    | _ => none)

/-! ## Helper lemmas -/

theorem textStream_agg (st : RState) (o : Output) :
    streamStep (textStep st o) o =
      RState.mk st.frags st.figId (st.agg ++ aggAppends o) st.events := by
  unfold textStep streamStep aggAppends textAppend streamAppend
  cases h : lookupData o "text/plain" with
  | none =>
    by_cases hs : o.output_type = "stream" ∧ o.name = some "stdout" <;>
      simp [hs, String.append_empty, String.empty_append, String.append_assoc]
  | some t =>
    by_cases hs : o.output_type = "stream" ∧ o.name = some "stdout" <;>
      simp [hs, String.append_empty, String.empty_append, String.append_assoc]

theorem imageStep_none (u : Bool) (dir fn : String) (st : RState) (o : Output)
    (h : lookupData o "image/png" = none) : imageStep u dir fn st o = st := by
  unfold imageStep
  simp [h]

theorem errorStep_of_error (st : RState) (o : Output) (h : o.output_type = "error") :
    errorStep st o =
      RState.mk (st.frags ++ [Frag.errBlock (joinSep "\n" o.traceback)]) st.figId
        st.agg st.events := by
  unfold errorStep
  simp [h]

theorem errorStep_of_not_error (st : RState) (o : Output)
    (h : o.output_type ≠ "error") : errorStep st o = st := by
  unfold errorStep
  simp [h]

/-- The fragments a flush of the aggregation buffer emits: nothing when the
buffer is empty, one Out: block otherwise. -/
def flushL (a : String) : List Frag :=
  if a = "" then [] else [Frag.outBlock a]

theorem imageStep_some (u : Bool) (dir fn : String) (st : RState) (o : Output)
    (d : String) (h : lookupData o "image/png" = some d) :
    imageStep u dir fn st o =
      if u then
        RState.mk (st.frags ++ flushL st.agg ++ [Frag.img64 d]) st.figId "" st.events
      else
        RState.mk
          (st.frags ++ flushL st.agg ++
            [Frag.imgFile (outFolder fn) (figFileName (st.figId + 1))])
          (st.figId + 1) ""
          (st.events ++
            [FsEvent.ensureDir (dir ++ delim ++ outFolder fn),
             FsEvent.writeImage (dir ++ delim ++ outFolder fn)
               (figFileName (st.figId + 1)) d]) := by
  unfold imageStep flushL
  by_cases ha : st.agg = "" <;> cases u <;> simp [h, ha]

theorem processOutput_eq (u : Bool) (dir fn : String) (st : RState) (o : Output) :
    processOutput u dir fn st o =
      errorStep
        (imageStep u dir fn
          (RState.mk st.frags st.figId (st.agg ++ aggAppends o) st.events) o) o := by
  unfold processOutput
  rw [textStream_agg]

theorem lookupData_of_data_nil (o : Output) (m : String) (h : o.data = []) :
    lookupData o m = none := by
  simp [lookupData, h]

/-! ## Claim theorems -/

/-- Claim C3: an error output is emitted immediately as a single
preformatted block joining the traceback lines with newlines and leaves the
aggregation buffer (and the rest of the state) unchanged; a non-image output
never flushes the buffer and appends at most its own error block, while an
image payload flushes a non-empty buffer as an Out: block placed immediately
before the image fragment. -/
theorem c3_error_and_flush_trigger :
    (∀ (u : Bool) (dir fn : String) (st : RState) (o : Output),
        o.output_type = "error" → o.data = [] →
        processOutput u dir fn st o =
          RState.mk (st.frags ++ [Frag.errBlock (joinSep "\n" o.traceback)]) st.figId
            st.agg st.events) ∧
    (∀ (u : Bool) (dir fn : String) (st : RState) (o : Output),
        lookupData o "image/png" = none →
        (processOutput u dir fn st o).agg = st.agg ++ aggAppends o ∧
        (processOutput u dir fn st o).frags =
          st.frags ++
            (if o.output_type = "error" then
              [Frag.errBlock (joinSep "\n" o.traceback)]
            else [])) ∧
    (∀ (u : Bool) (dir fn : String) (st : RState) (o : Output) (d : String),
        lookupData o "image/png" = some d → o.output_type ≠ "error" →
        (processOutput u dir fn st o).frags =
          st.frags ++ flushL (st.agg ++ aggAppends o) ++
            [if u then Frag.img64 d
             else Frag.imgFile (outFolder fn) (figFileName (st.figId + 1))] ∧
        (processOutput u dir fn st o).agg = "") := by
  refine ⟨?_, ?_, ?_⟩
  · intro u dir fn st o he hd
    have hagg : aggAppends o = "" := by
      simp [aggAppends, textAppend, streamAppend, lookupData, hd, he]
    rw [processOutput_eq, imageStep_none _ _ _ _ _ (lookupData_of_data_nil o _ hd),
      hagg, errorStep_of_error _ _ he]
    simp [String.append_empty]
  · intro u dir fn st o himg
    rw [processOutput_eq, imageStep_none _ _ _ _ _ himg]
    by_cases he : o.output_type = "error"
    · rw [errorStep_of_error _ _ he]
      simp [he]
    · rw [errorStep_of_not_error _ _ he]
      simp [he]
  · intro u dir fn st o d himg hne
    rw [processOutput_eq, imageStep_some _ _ _ _ _ _ himg]
    cases u <;>
      simp [errorStep_of_not_error _ _ hne]

/-- Witness for C3 at a concrete error output on a concrete state. -/
theorem c3_witness :
    processOutput false "in" "nb.ipynb" (RState.mk [] 0 "" [])
        (errOut ["Traceback", "ZeroDivisionError"]) =
      RState.mk [Frag.errBlock "Traceback\nZeroDivisionError"] 0 "" [] :=
  c3_error_and_flush_trigger.1 false "in" "nb.ipynb" (RState.mk [] 0 "" [])
    (errOut ["Traceback", "ZeroDivisionError"]) rfl rfl

/-- Claim C10: a stream output not named stdout, and more generally any
output carrying none of the four recognised payload kinds, contributes no
fragment, no event and no buffer change: the state is returned untouched. -/
theorem c10_silent_drop :
    (∀ (u : Bool) (dir fn : String) (st : RState) (o : Output),
        o.output_type = "stream" → o.name ≠ some "stdout" → o.data = [] →
        processOutput u dir fn st o = st) ∧
    (∀ (u : Bool) (dir fn : String) (st : RState) (o : Output),
        lookupData o "text/plain" = none → lookupData o "image/png" = none →
        ¬(o.output_type = "stream" ∧ o.name = some "stdout") →
        o.output_type ≠ "error" →
        processOutput u dir fn st o = st) := by
  have main : ∀ (u : Bool) (dir fn : String) (st : RState) (o : Output),
      lookupData o "text/plain" = none → lookupData o "image/png" = none →
      ¬(o.output_type = "stream" ∧ o.name = some "stdout") →
      o.output_type ≠ "error" →
      processOutput u dir fn st o = st := by
    intro u dir fn st o ht himg hs hne
    unfold processOutput textStep streamStep
    rw [ht]
    simp only [if_neg hs]
    rw [imageStep_none _ _ _ _ _ himg, errorStep_of_not_error _ _ hne]
  refine ⟨?_, main⟩
  intro u dir fn st o hstream hn hd
  refine main u dir fn st o (lookupData_of_data_nil o _ hd)
    (lookupData_of_data_nil o _ hd) (fun h => hn h.2) ?_
  rw [hstream]
  decide

/-- Witness for C10 at a concrete stderr stream output. -/
theorem c10_witness :
    processOutput false "in" "nb.ipynb" (RState.mk [Frag.codeCell "x"] 0 "" [])
        (Output.mk "stream" (some "stderr") (some "boom") [] []) =
      RState.mk [Frag.codeCell "x"] 0 "" [] :=
  c10_silent_drop.1 false "in" "nb.ipynb" (RState.mk [Frag.codeCell "x"] 0 "" [])
    (Output.mk "stream" (some "stderr") (some "boom") [] []) rfl (by decide) rfl

theorem splitHashSpace_ne_nil (l acc : List Char) : splitHashSpace l acc ≠ [] := by
  induction l, acc using splitHashSpace.induct with
  | case1 rest acc ih => simp [splitHashSpace]
  | case2 c rest acc h ih => simpa [splitHashSpace, h] using ih
  | case3 acc => simp [splitHashSpace]

theorem joinSep_cons_ne (sep x : String) (xs : List String) (h : xs ≠ []) :
    joinSep sep (x :: xs) = x ++ sep ++ joinSep sep xs := by
  cases xs with
  | nil => exact absurd rfl h
  | cons y ys => rfl

theorem joinSep_splitHashSpace (l acc : List Char) :
    joinSep "# " (splitHashSpace l acc) = String.mk acc.reverse ++ String.mk l := by
  induction l, acc using splitHashSpace.induct with
  | case1 rest acc ih =>
    rw [show splitHashSpace ('#' :: ' ' :: rest) acc =
          String.mk acc.reverse :: splitHashSpace rest [] from rfl,
        joinSep_cons_ne _ _ _ (splitHashSpace_ne_nil rest []), ih]
    show String.mk ((acc.reverse ++ ['#', ' ']) ++ (List.reverse [] ++ rest)) =
      String.mk (acc.reverse ++ ('#' :: ' ' :: rest))
    simp
  | case2 c rest acc h ih =>
    rw [show splitHashSpace (c :: rest) acc = splitHashSpace rest (c :: acc) by
          simp [splitHashSpace, h], ih]
    show String.mk ((c :: acc).reverse ++ rest) = String.mk (acc.reverse ++ (c :: rest))
    simp
  | case3 acc =>
    show String.mk acc.reverse = String.mk acc.reverse ++ String.mk []
    rw [String.append_empty]

/-- The pieces of the split on hash-space reassemble to the whole string, so
the last piece is exactly the text after the final separator occurrence. -/
theorem split_join_identity (e : String) :
    joinSep "# " (splitHashSpaceStr e) = e := by
  have := joinSep_splitHashSpace e.toList []
  simpa [splitHashSpaceStr] using this

/-- The heading branch of the markdown case of the cell loop. -/
theorem processCell_md_heading (u : Bool) (dir fn s : String) (outs : List Output)
    (st : RState) (l : String) (hl : mdLines (htmlEscape s) = [l])
    (hstart : strStartsWith l "#" = true) :
    processCell u dir fn st (Cell.mk "markdown" s outs) =
      RState.mk
        (st.frags ++
          [Frag.mdHeading (countChar '#' (htmlEscape s)) (lastHashSplit (htmlEscape s))])
        st.figId st.agg st.events := by
  simp [processCell, hl, hstart]

/-- The plain branch of the markdown case of the cell loop. -/
theorem processCell_md_plain (u : Bool) (dir fn s : String) (outs : List Output)
    (st : RState)
    (hc : (match mdLines (htmlEscape s) with
           | [l] => strStartsWith l "#"
           | _ => false) = false) :
    processCell u dir fn st (Cell.mk "markdown" s outs) =
      RState.mk (st.frags ++ [Frag.mdPlain (htmlEscape s)]) st.figId st.agg
        st.events := by
  cases hm : mdLines (htmlEscape s) with
  | nil => simp [processCell, hm]
  | cons x rest =>
    cases rest with
    | nil =>
      rw [hm] at hc
      simp [processCell, hm]
      exact hc
    | cons y ys => simp [processCell, hm]

/-- Claim C5: a markdown cell whose escaped source has exactly one non-blank
line starting with a hash is rendered as a heading whose level is the number
of hash characters anywhere in the escaped content; every other markdown cell
is rendered as a plain markdown block around the escaped source. -/
theorem c5_markdown_heading_dispatch :
    (∀ (u : Bool) (dir fn s : String) (outs : List Output) (st : RState) (l : String),
        mdLines (htmlEscape s) = [l] → strStartsWith l "#" = true →
        processCell u dir fn st (Cell.mk "markdown" s outs) =
          RState.mk
            (st.frags ++
              [Frag.mdHeading (countChar '#' (htmlEscape s))
                (lastHashSplit (htmlEscape s))])
            st.figId st.agg st.events) ∧
    (∀ (u : Bool) (dir fn s : String) (outs : List Output) (st : RState),
        (match mdLines (htmlEscape s) with
         | [l] => strStartsWith l "#"
         | _ => false) = false →
        processCell u dir fn st (Cell.mk "markdown" s outs) =
          RState.mk (st.frags ++ [Frag.mdPlain (htmlEscape s)]) st.figId st.agg
            st.events) := by
  exact ⟨processCell_md_heading, processCell_md_plain⟩

/-- Witness for C5 at the concrete markdown cell of two hashes: level two,
emitted text Sub. -/
theorem c5_witness :
    processCell false "in" "nb.ipynb" (RState.mk [] 0 "" [])
        (Cell.mk "markdown" "## Sub" []) =
      RState.mk [Frag.mdHeading 2 "Sub"] 0 "" [] :=
  c5_markdown_heading_dispatch.1 false "in" "nb.ipynb" "## Sub" []
    (RState.mk [] 0 "" []) "## Sub" rfl rfl

/-- Counterexample for C6: the heading cell of source hash-space-A-hash-
space-B emits the text B (after the LAST separator), while the claim demands
everything after the FIRST separator, which is A-hash-space-B. -/
theorem c6_counterexample :
    (extractFrags (Notebook.mk [Cell.mk "markdown" "# A# B" []]) "in" "nb.ipynb"
          false).frags = [Frag.mdHeading 2 "B"] ∧
    claimFirstSplit (htmlEscape "# A# B") = "A# B" ∧
    ("B" : String) ≠ "A# B" :=
  ⟨rfl, rfl, by decide⟩

/-- Claim C6 as amended: the emitted heading text is the LAST element of
splitting the escaped content on the hash-space separator, that is,
everything after the last occurrence of the separator; the split pieces
reassemble to the escaped content. -/
theorem c6_amended_last_split :
    (∀ (u : Bool) (dir fn s : String) (outs : List Output) (st : RState) (l : String),
        mdLines (htmlEscape s) = [l] → strStartsWith l "#" = true →
        (processCell u dir fn st (Cell.mk "markdown" s outs)).frags =
          st.frags ++
            [Frag.mdHeading (countChar '#' (htmlEscape s))
              ((splitHashSpaceStr (htmlEscape s)).getLastD (htmlEscape s))]) ∧
    (∀ e : String, joinSep "# " (splitHashSpaceStr e) = e) := by
  constructor
  · intro u dir fn s outs st l hl hstart
    rw [processCell_md_heading u dir fn s outs st l hl hstart]
    rfl
  · exact split_join_identity

/-- Witness for C6 at the counterexample cell: the emitted text is B. -/
theorem c6_witness :
    (processCell false "in" "nb.ipynb" (RState.mk [] 0 "" [])
        (Cell.mk "markdown" "# A# B" [])).frags = [Frag.mdHeading 2 "B"] :=
  c6_amended_last_split.1 false "in" "nb.ipynb" "# A# B" [] (RState.mk [] 0 "" [])
    "# A# B" rfl rfl

theorem escapeChar_no_angles (c : Char) :
    ¬ '<' ∈ escapeChar c ∧ ¬ '>' ∈ escapeChar c := by
  unfold escapeChar
  split
  · decide
  split
  · decide
  split
  · decide
  split
  · decide
  split
  · decide
  rename_i h1 h2 h3 h4 h5
  refine ⟨fun hh => h2 ?_, fun hh => h3 ?_⟩
  · exact (List.mem_singleton.mp hh).symm
  · exact (List.mem_singleton.mp hh).symm

/-- The escape output never contains a raw angle bracket. -/
theorem htmlEscape_no_angles (s : String) :
    ¬ '<' ∈ (htmlEscape s).toList ∧ ¬ '>' ∈ (htmlEscape s).toList := by
  show ¬ '<' ∈ (s.toList.foldr (fun c acc => escapeChar c ++ acc) []) ∧
    ¬ '>' ∈ (s.toList.foldr (fun c acc => escapeChar c ++ acc) [])
  induction s.toList with
  | nil => simp
  | cons c cs ih =>
    simp only [List.foldr_cons, List.mem_append, not_or]
    exact ⟨⟨(escapeChar_no_angles c).1, ih.1⟩, ⟨(escapeChar_no_angles c).2, ih.2⟩⟩

/-- Counterexample for C2: a code cell source containing a raw angle bracket
is emitted verbatim into the markup; had it been escaped it would read
a-amp-lt-semicolon-b instead. -/
theorem c2_counterexample :
    strContainsSub
        (extract_html_from_notebook (Notebook.mk [Cell.mk "code" "a < b" []]) "in"
          "nb.ipynb" false) "a < b" = true ∧
    strContainsSub (htmlEscape "a < b") "a < b" = false :=
  ⟨by decide, by decide⟩

/-- Claim C2 as amended: markdown cell sources, text/plain payloads and
stdout stream texts pass through the HTML escape (whose output has no raw
angle bracket) before emission, while code cell sources and error traceback
lines are emitted verbatim and may carry raw angle brackets into the markup. -/
theorem c2_amended_escaping :
    (∀ s : String, ¬ '<' ∈ (htmlEscape s).toList ∧ ¬ '>' ∈ (htmlEscape s).toList) ∧
    (∀ (u : Bool) (dir fn t : String),
        (extractFrags (Notebook.mk [Cell.mk "code" "" [streamStdout t]]) dir fn
            u).frags =
          [Frag.codeCell "", Frag.outBlock ("\n\t\t" ++ htmlEscape t)]) ∧
    (∀ (u : Bool) (dir fn t : String),
        (extractFrags (Notebook.mk [Cell.mk "code" "" [execResult t]]) dir fn
            u).frags =
          [Frag.codeCell "", Frag.outBlock ("\n\t\t" ++ htmlEscape t)]) ∧
    (∀ (u : Bool) (dir fn s : String) (outs : List Output) (st : RState),
        (match mdLines (htmlEscape s) with
         | [l] => strStartsWith l "#"
         | _ => false) = false →
        (processCell u dir fn st (Cell.mk "markdown" s outs)).frags =
          st.frags ++ [Frag.mdPlain (htmlEscape s)]) ∧
    (∀ (u : Bool) (dir fn src : String),
        extract_html_from_notebook (Notebook.mk [Cell.mk "code" src []]) dir fn u =
          "<div class='code-cell'>\n\t<code class='language-python'>\n\t\t" ++ src ++
            "\n\t</code>\n</div>") ∧
    (∀ (u : Bool) (dir fn : String) (tb : List String),
        (extractFrags (Notebook.mk [Cell.mk "code" "" [errOut tb]]) dir fn u).frags =
          [Frag.codeCell "", Frag.errBlock (joinSep "\n" tb)]) := by
  refine ⟨htmlEscape_no_angles, fun u dir fn t => rfl, fun u dir fn t => rfl,
    ?_, fun u dir fn src => rfl, fun u dir fn tb => rfl⟩
  intro u dir fn s outs st hc
  rw [processCell_md_plain u dir fn s outs st hc]

/-- Witness for C2 at a concrete markdown cell whose source carries an angle
bracket: the emitted block holds the escaped source. -/
theorem c2_witness :
    (processCell false "in" "nb.ipynb" (RState.mk [] 0 "" [])
        (Cell.mk "markdown" "x < y" [])).frags = [Frag.mdPlain (htmlEscape "x < y")] :=
  c2_amended_escaping.2.2.2.1 false "in" "nb.ipynb" "x < y" [] (RState.mk [] 0 "" [])
    rfl

theorem processOutput_imgOut (dir fn d : String) (st : RState) :
    processOutput false dir fn st (mkImgOut d) =
      RState.mk
        (st.frags ++ flushL st.agg ++
          [Frag.imgFile (outFolder fn) (figFileName (st.figId + 1))])
        (st.figId + 1) ""
        (st.events ++
          [FsEvent.ensureDir (dir ++ delim ++ outFolder fn),
           FsEvent.writeImage (dir ++ delim ++ outFolder fn)
             (figFileName (st.figId + 1)) d]) := by
  have himg : lookupData (mkImgOut d) "image/png" = some d := rfl
  have hagg : aggAppends (mkImgOut d) = "" := rfl
  have hne : (mkImgOut d).output_type ≠ "error" := by simp [mkImgOut]
  rw [processOutput_eq, hagg, String.append_empty,
    imageStep_some false dir fn _ _ d himg]
  rw [if_neg (by decide : ¬ false = true)]
  rw [errorStep_of_not_error _ _ hne]

theorem imgEventNames_append (a b : List FsEvent) :
    imgEventNames (a ++ b) = imgEventNames a ++ imgEventNames b := by
  simp [imgEventNames]

theorem foldImg_names (dir fn : String) :
    ∀ (datas : List String) (st : RState),
      imgEventNames
          ((datas.map mkImgOut).foldl (processOutput false dir fn) st).events =
        imgEventNames st.events ++
          (List.range datas.length).map (fun i => figFileName (st.figId + i + 1)) := by
  intro datas
  induction datas with
  | nil => intro st; simp
  | cons d ds ih =>
    intro st
    simp only [List.map_cons, List.foldl_cons, List.length_cons]
    rw [processOutput_imgOut dir fn d st, ih]
    simp only [imgEventNames_append]
    rw [List.range_succ_eq_map, List.map_cons, List.map_map]
    have hfun : ((fun i => figFileName (st.figId + i + 1)) ∘ Nat.succ) =
        (fun i => figFileName (st.figId + 1 + i + 1)) := by
      funext i
      show figFileName (st.figId + (i + 1) + 1) = figFileName (st.figId + 1 + i + 1)
      congr 1
      omega
    rw [hfun]
    show (imgEventNames st.events ++ [figFileName (st.figId + 1)]) ++ _ = _
    simp [List.append_assoc]

theorem processCell_code_events (u : Bool) (dir fn : String) (st : RState)
    (src : String) (outs : List Output) :
    (processCell u dir fn st (Cell.mk "code" src outs)).events =
      (outs.foldl (processOutput u dir fn)
        (RState.mk (st.frags ++ [Frag.codeCell src]) st.figId st.agg st.events)).events := by
  show (codeCellFlush _).events = _
  unfold codeCellFlush
  split
  · rfl
  · rfl

/-- Counterexample for C4: with ten image outputs in one notebook the tenth
saved file is named fig_010.png, not fig_10.png as the claim states. -/
theorem c4_counterexample :
    (imgEventNames
        (extractFrags
          (Notebook.mk [Cell.mk "code" "" ((List.replicate 10 "D").map mkImgOut)])
          "in" "nb.ipynb" false).events).getLastD "" = "fig_010.png" ∧
    ("fig_010.png" : String) ≠ "fig_10.png" :=
  ⟨rfl, by decide⟩

/-- Claim C4 as amended: image files are numbered consecutively from one per
notebook; the name is the literal fig underscore zero followed by the
(unpadded) counter for the first ten images — fig_01.png through fig_09.png
and then fig_010.png for the tenth — and the plain unpadded fig_11.png and
onward afterwards. -/
theorem c4_amended_fig_numbering :
    (∀ (dir fn : String) (datas : List String),
        imgEventNames
            (extractFrags (Notebook.mk [Cell.mk "code" "" (datas.map mkImgOut)]) dir
              fn false).events =
          (List.range datas.length).map (fun i => figFileName (i + 1))) ∧
    figFileName 1 = "fig_01.png" ∧ figFileName 9 = "fig_09.png" ∧
    figFileName 10 = "fig_010.png" ∧ figFileName 11 = "fig_11.png" := by
  refine ⟨?_, rfl, rfl, rfl, rfl⟩
  intro dir fn datas
  show imgEventNames
      (processCell false dir fn (RState.mk [] 0 "" [])
        (Cell.mk "code" "" (datas.map mkImgOut))).events = _
  rw [processCell_code_events, foldImg_names]
  have hfun : (fun i => figFileName (0 + i + 1)) = (fun i => figFileName (i + 1)) := by
    funext i
    congr 1
    omega
  show [] ++ _ = _
  rw [hfun, List.nil_append]

theorem codeCellFlush_agg (st2 : RState) : (codeCellFlush st2).agg = "" := by
  unfold codeCellFlush
  split
  · assumption
  · rfl

theorem codeCellFlush_events (st2 : RState) :
    (codeCellFlush st2).events = st2.events := by
  unfold codeCellFlush
  split
  · rfl
  · rfl

theorem processCell_code_agg (u : Bool) (dir fn : String) (st : RState) (c : Cell)
    (hc : c.cell_type = "code") : (processCell u dir fn st c).agg = "" := by
  unfold processCell
  rw [if_pos hc]
  exact codeCellFlush_agg _

theorem processCell_agg_pres (u : Bool) (dir fn : String) (st : RState) (c : Cell)
    (h : st.agg = "") : (processCell u dir fn st c).agg = "" := by
  unfold processCell
  split
  · exact codeCellFlush_agg _
  split
  · split
    · split
      · exact h
      · exact h
    · exact h
  · exact h

theorem foldCells_agg (u : Bool) (dir fn : String) :
    ∀ (cells : List Cell) (st : RState), st.agg = "" →
      ((cells.foldl (processCell u dir fn) st).agg = "") := by
  intro cells
  induction cells with
  | nil => intro st h; exact h
  | cons c cs ih =>
    intro st h
    exact ih _ (processCell_agg_pres u dir fn st c h)

/-- Claim C9: every code cell ends with an empty aggregation buffer — a
pending buffer is flushed as a final Out: block — markdown cells leave the
buffer alone, and hence the buffer is empty at the start of every cell of
the rendering pass. -/
theorem c9_agg_buffer_invariant :
    (∀ (u : Bool) (dir fn : String) (st : RState) (c : Cell),
        c.cell_type = "code" → (processCell u dir fn st c).agg = "") ∧
    (∀ (u : Bool) (dir fn : String) (nb : Notebook) (k : Nat),
        ((nb.cells.take k).foldl (processCell u dir fn)
            (RState.mk [] 0 "" [])).agg = "") ∧
    (∀ (u : Bool) (dir fn : String) (st : RState) (src : String) (outs : List Output),
        (outs.foldl (processOutput u dir fn)
            (RState.mk (st.frags ++ [Frag.codeCell src]) st.figId st.agg
              st.events)).agg ≠ "" →
        processCell u dir fn st (Cell.mk "code" src outs) =
          RState.mk
            ((outs.foldl (processOutput u dir fn)
                (RState.mk (st.frags ++ [Frag.codeCell src]) st.figId st.agg
                  st.events)).frags ++
              [Frag.outBlock
                (outs.foldl (processOutput u dir fn)
                  (RState.mk (st.frags ++ [Frag.codeCell src]) st.figId st.agg
                    st.events)).agg])
            (outs.foldl (processOutput u dir fn)
              (RState.mk (st.frags ++ [Frag.codeCell src]) st.figId st.agg
                st.events)).figId
            ""
            (outs.foldl (processOutput u dir fn)
              (RState.mk (st.frags ++ [Frag.codeCell src]) st.figId st.agg
                st.events)).events) := by
  refine ⟨processCell_code_agg, ?_, ?_⟩
  · intro u dir fn nb k
    exact foldCells_agg u dir fn (nb.cells.take k) _ rfl
  · intro u dir fn st src outs hne
    show codeCellFlush _ = _
    unfold codeCellFlush
    rw [if_neg hne]

/-- Witness for C9 at a concrete code cell with a stdout output: the buffer
is empty afterwards. -/
theorem c9_witness :
    (processCell false "in" "nb.ipynb" (RState.mk [] 0 "" [])
        (Cell.mk "code" "print(1)" [streamStdout "1\n"])).agg = "" :=
  c9_agg_buffer_invariant.1 false "in" "nb.ipynb" (RState.mk [] 0 "" [])
    (Cell.mk "code" "print(1)" [streamStdout "1\n"]) rfl

theorem errorStep_events (st : RState) (o : Output) :
    (errorStep st o).events = st.events := by
  unfold errorStep
  split
  · rfl
  · rfl

theorem imageStep_events_b64 (dir fn : String) (st : RState) (o : Output) :
    (imageStep true dir fn st o).events = st.events := by
  unfold imageStep
  split
  · split
    · rfl
    · rfl
  · rfl

theorem processOutput_events_b64 (dir fn : String) (st : RState) (o : Output) :
    (processOutput true dir fn st o).events = st.events := by
  rw [processOutput_eq, errorStep_events, imageStep_events_b64]

theorem foldOutputs_events_b64 (dir fn : String) :
    ∀ (outs : List Output) (st : RState),
      ((outs.foldl (processOutput true dir fn) st).events = st.events) := by
  intro outs
  induction outs with
  | nil => intro st; rfl
  | cons o os ih =>
    intro st
    rw [List.foldl_cons, ih, processOutput_events_b64]

theorem processCell_events_b64 (dir fn : String) (st : RState) (c : Cell) :
    (processCell true dir fn st c).events = st.events := by
  unfold processCell
  split
  · rw [codeCellFlush_events, foldOutputs_events_b64]
  split
  · split
    · split
      · rfl
      · rfl
    · rfl
  · rfl

theorem foldCells_events_b64 (dir fn : String) :
    ∀ (cells : List Cell) (st : RState),
      ((cells.foldl (processCell true dir fn) st).events = st.events) := by
  intro cells
  induction cells with
  | nil => intro st; rfl
  | cons c cs ih =>
    intro st
    rw [List.foldl_cons, ih, processCell_events_b64]

/-- Claim C8: with Base64 embedding the whole rendering pass records no
filesystem event — no directory creation and no image file write — and an
image payload only flushes the pending buffer and appends the Base64
data-URI fragment, leaving counter and event log untouched. -/
theorem c8_base64_frame :
    (∀ (nb : Notebook) (dir fn : String),
        (extractFrags nb dir fn true).events = []) ∧
    (∀ (dir fn : String) (st : RState) (o : Output) (d : String),
        lookupData o "image/png" = some d → o.output_type ≠ "error" →
        processOutput true dir fn st o =
          RState.mk
            (st.frags ++ flushL (st.agg ++ aggAppends o) ++ [Frag.img64 d])
            st.figId "" st.events) := by
  constructor
  · intro nb dir fn
    exact foldCells_events_b64 dir fn nb.cells _
  · intro dir fn st o d himg hne
    rw [processOutput_eq, imageStep_some true dir fn _ _ d himg,
      if_pos rfl, errorStep_of_not_error _ _ hne]

/-- Witness for C8 at a concrete image-only output on an empty buffer: the
only change is the appended data-URI fragment. -/
theorem c8_witness :
    processOutput true "in" "nb.ipynb" (RState.mk [] 0 "" []) (mkImgOut "IMG") =
      RState.mk [Frag.img64 "IMG"] 0 "" [] :=
  c8_base64_frame.2 "in" "nb.ipynb" (RState.mk [] 0 "" []) (mkImgOut "IMG") "IMG"
    rfl (by simp [mkImgOut])

/-- Claim C7: on any markup whose headings come in document order at levels
one, two, three, two with (distinctly titled) titles a, b, c, d, the
extractor nests b and d directly under a and c under b: d closes the deeper
sections and becomes a sibling of b, not a descendant of b or c. -/
theorem c7_hierarchy_shape :
    ∀ (doc : NodeList) (fn a b c d c1 c2 c3 c4 : String),
      headingTriples doc = [(1, a, c1), (2, b, c2), (3, c, c3), (2, d, c4)] →
      b ≠ d →
      html_to_hierarchical_json doc fn =
        (fn,
          [(a, Section.mk c1
              [(b, Section.mk c2 [(c, Section.mk c3 [])]),
               (d, Section.mk c4 [])])]) := by
  intro doc fn a b c d c1 c2 c3 c4 htr hbd
  unfold html_to_hierarchical_json
  rw [htr]
  unfold buildHierarchy
  simp [hstep, popGo, insertSec, hbd]

/-- Witness for C7 on the rendered markup of four heading cells titled A, B,
C, D at levels one, two, three, two. -/
theorem c7_witness :
    html_to_hierarchical_json
        (docOfFrags
          [Frag.mdHeading 1 "A", Frag.mdHeading 2 "B", Frag.mdHeading 3 "C",
           Frag.mdHeading 2 "D"]) "nb.ipynb" =
      ("nb.ipynb",
        [("A", Section.mk "<h1>\n\t\tA\n\t</h1>"
            [("B", Section.mk "<h2>\n\t\tB\n\t</h2>"
                [("C", Section.mk "<h3>\n\t\tC\n\t</h3>" [])]),
             ("D", Section.mk "<h2>\n\t\tD\n\t</h2>" [])])]) :=
  c7_hierarchy_shape
    (docOfFrags
      [Frag.mdHeading 1 "A", Frag.mdHeading 2 "B", Frag.mdHeading 3 "C",
       Frag.mdHeading 2 "D"]) "nb.ipynb" "A" "B" "C" "D"
    "<h1>\n\t\tA\n\t</h1>" "<h2>\n\t\tB\n\t</h2>" "<h3>\n\t\tC\n\t</h3>"
    "<h2>\n\t\tD\n\t</h2>" rfl (by decide)

theorem joinSep_empty_append :
    ∀ (a b : List String), joinSep "" (a ++ b) = joinSep "" a ++ joinSep "" b := by
  intro a
  induction a with
  | nil =>
    intro b
    rw [List.nil_append]
    exact (String.empty_append _).symm
  | cons x a ih =>
    intro b
    cases a with
    | nil =>
      cases b with
      | nil => exact (String.append_empty x).symm
      | cons y ys =>
        show x ++ "" ++ joinSep "" (y :: ys) = x ++ joinSep "" (y :: ys)
        rw [String.append_empty]
    | cons z zs =>
      show x ++ "" ++ joinSep "" ((z :: zs) ++ b) =
        (x ++ "" ++ joinSep "" (z :: zs)) ++ joinSep "" b
      rw [ih b]
      simp [String.append_assoc, String.append_empty]

theorem filter_takeWhile_dropWhile (p : Node → Bool) (l : List Node) :
    l.filter p = l.takeWhile p ++ (l.dropWhile p).filter p := by
  conv_lhs => rw [← List.takeWhile_append_dropWhile p l]
  rw [List.filter_append]
  congr 1
  exact List.filter_eq_self.mpr (fun a ha => List.mem_takeWhile_imp ha)

/-- Counterexample for C1: the rendered markup of a notebook whose code cell
source holds an HTML string literal parses into a heading (the h1 titled T)
whose element siblings continue past the next heading (the h2 titled S); the
extractor's filter keeps the p element with text Q that lies beyond the h2,
so T's contents include markup the claim requires to be excluded. -/
theorem c1_counterexample :
    extract_html_from_notebook nbC1 "in" "nb.ipynb" false =
      "<div class='code-cell'>\n\t<code class='language-python'>\n\t\thtml_str = \"<h1>T</h1><p>P</p><h2>S</h2><p>Q</p>\"\n\t</code>\n</div>" ∧
    collectList docC1 = [(h1C1, sibsH1C1), (h2C1,
      NodeList.cons pQ_C1 (NodeList.cons (Node.text "\"\n\t") NodeList.nil))] ∧
    html_to_hierarchical_json docC1 "nb.ipynb" =
      ("nb.ipynb",
        [("T", Section.mk "<h1>T</h1><p>P</p><p>Q</p>"
            [("S", Section.mk "<h2>S</h2><p>Q</p>" [])])]) ∧
    contentsClaim h1C1 sibsH1C1 = "<h1>T</h1><p>P</p>" ∧
    ("<h1>T</h1><p>P</p><p>Q</p>" : String) ≠ "<h1>T</h1><p>P</p>" :=
  ⟨rfl, rfl, rfl, rfl, by decide⟩

/-- Claim C1 as amended: the extractor sets a heading's contents to the
heading's own markup, plus the markup of the following sibling elements up
to the next heading-matching sibling, plus the markup of every non-heading
sibling element at or past that next heading — the filter on the anchored
pattern h followed by a digit one to six excludes heading siblings wherever
they occur but performs no cutoff at the first one. -/
theorem c1_amended_contents (t : Node) (sibs : NodeList) :
    contentsCode t sibs =
      (strNode t ++
        joinSep ""
          ((sibs.tags.takeWhile (fun u => !(matchH (tagName u)))).map strNode)) ++
      joinSep ""
        (((sibs.tags.dropWhile (fun u => !(matchH (tagName u)))).filter
            (fun u => !(matchH (tagName u)))).map strNode) := by
  unfold contentsCode
  rw [filter_takeWhile_dropWhile (fun u => !(matchH (tagName u))) sibs.tags,
    List.map_append, joinSep_empty_append]
  simp [String.append_assoc]

end ConvertNotebooks
